import Mathlib

/-!
Verification model of the `react-fastapi-practice` user-management backend.

The embedding follows `src/backend/crud.py`, `src/backend/main.py` and
`src/backend/schemas.py`. The SQLAlchemy model module (`models.py`) and the
database module (`database.py`) are not among the sources, so the stored
record and the store are modelled from the spec (data model of section 3,
persistence layer of section 4.2). The bcrypt hasher is external
(`passlib`); it is modelled as an abstract parameter `hashFn`, with the
spec-stated properties (digest is never the plaintext, digests are
non-empty) taken as hypotheses where a claim needs them.
-/

namespace Backend

/-- Modelled from the spec: the stored User row (`models.py` is not among the
sources). Section 3 gives the columns `id`, `name`, `email`,
`hashed_password`, `is_active`. Section 4.3 requires that an explicit `null`
in a patch payload is copied onto the record unconditionally, so the columns
a patch can null out (`email`, `is_active`) are modelled as nullable
(`Option`); `name` and `hashed_password` are never assigned a null by any
code path. -/
structure UserRecord where
  id : Nat
  name : String
  email : Option String
  hashed_password : String
  is_active : Option Bool
deriving Repr, DecidableEq

/-- Modelled from the spec: the single-table store behind the session
(`database.py` is not among the sources). Rows are kept in insertion /
primary-key order; `nextId` is the next surrogate key the store will assign
(section 3: assigned on creation, never reused after deletion). -/
structure DB where
  users : List UserRecord
  nextId : Nat
deriving Repr, DecidableEq

/-- The empty store; ids start at 1 as in SQLite autoincrement. -/
def emptyDB : DB := ⟨[], 1⟩

/-- Store well-formedness: every stored id is below the next id the store
will assign. Holds for every store grown from `emptyDB`. -/
def dbWF (db : DB) : Prop := ∀ u ∈ db.users, u.id < db.nextId

instance (db : DB) : Decidable (dbWF db) := List.decidableBAll _ db.users

/-- Modelled from the spec: the store-defined default for `is_active`
(section 3: "defaults to a store-defined default"). -/
def IS_ACTIVE_DEFAULT : Bool := true

/-- schemas.py `UserCreate`: `email`, `name`, `password`, all required. -/
structure UserCreate where
  email : String
  name : String
  password : String
deriving Repr, DecidableEq

/-- schemas.py `UserUpdate`: exactly the fields `email`, `password`,
`is_active`, each `... | None = None` and so three-state. The outer `Option`
is the pydantic set/unset distinction (`model_dump(exclude_unset=True)` keeps
only the `some` fields); the inner `Option` is an explicit JSON `null`.
Note: the schema has NO `name` field, so a request body key `name` is
ignored by validation (the pydantic default extra-key behaviour) and validates
to the all-unset value `⟨none, none, none⟩`. -/
structure UserUpdate where
  email : Option (Option String)
  password : Option (Option String)
  is_active : Option (Option Bool)
deriving Repr, DecidableEq

/-- schemas.py `User`, the response projection: `id`, `email`, `name`,
`is_active` and no `hashed_password`. `email` and `is_active` are required
non-null here, as in the pydantic schema. -/
structure ApiUser where
  id : Nat
  email : String
  name : String
  is_active : Bool
deriving Repr, DecidableEq

/-- Reading a stored row through the `User` response schema
(`response_model` validation with `from_attributes`): succeeds iff the
nullable columns actually hold values; a stored null in `email` or
`is_active` fails response validation. The stored record is not modified. -/
def toApiUser (r : UserRecord) : Option ApiUser :=
  match r.email, r.is_active with
  | some e, some a => some ⟨r.id, e, r.name, a⟩
  | _, _ => none

/-- Hashing errors: passlib raises `TypeError` when handed `None` instead of
a string ("secret must be unicode or bytes"). -/
inductive HashErr where
  | typeError
deriving Repr, DecidableEq

/-- crud.py `get_password_hash`: delegates to the bcrypt context, here the
abstract `hashFn`. The argument is dynamically typed in Python; an explicit
`None` reaching it raises `TypeError` inside passlib. -/
def get_password_hash (hashFn : String → String) : Option String → Except HashErr String
  | none => .error .typeError
  | some p => .ok (hashFn p)

/-- crud.py `get_user`: point lookup by primary key. -/
def get_user (db : DB) (user_id : Nat) : Option UserRecord :=
  db.users.find? (fun u => u.id == user_id)

/-- crud.py `get_user_by_email`: first row whose email column equals the
given string (a stored null never matches a string lookup). -/
def get_user_by_email (db : DB) (email : String) : Option UserRecord :=
  db.users.find? (fun u => u.email == some email)

/-- crud.py `get_users`: `offset(skip).limit(limit)` over the table in
primary-key order. `skip`/`limit` are the non-negative integers the API is
specified for; crud.py defaults them to 0 and 100. -/
def get_users (db : DB) (skip : Nat) (limit : Nat) : List UserRecord :=
  (db.users.drop skip).take limit

/-- crud.py default for `skip`. -/
def DEFAULT_SKIP : Nat := 0

/-- crud.py default for `limit`. -/
def DEFAULT_LIMIT : Nat := 100

/-- crud.py `create_user`: hash the password (`get_password_hash` on the
required string `user.password`, which reduces to `.ok (hashFn _)` — see
`get_password_hash_some`), build the row, insert, commit, refresh. The store
assigns `id := nextId`; `is_active` takes the store default. Returns the
refreshed row and the new store. -/
def create_user (hashFn : String → String) (db : DB) (user : UserCreate) :
    UserRecord × DB :=
  let hashed_password := hashFn user.password
  let db_user : UserRecord :=
    ⟨db.nextId, user.name, some user.email, hashed_password, some IS_ACTIVE_DEFAULT⟩
  (db_user, ⟨db.users ++ [db_user], db.nextId + 1⟩)

/-- Commit of an in-place mutation of a fetched row: the row with the same
primary key is replaced; order and all other rows are untouched. -/
def set_user (db : DB) (r : UserRecord) : DB :=
  ⟨db.users.map (fun u => if u.id == r.id then r else u), db.nextId⟩

/-- The generic field-copy step of crud.py `update_user`: after the
`password` key has been handled and deleted, the remaining keys that
`model_dump(exclude_unset=True)` can produce are exactly `email` and
`is_active`; each present one (its value may be an explicit null) is
`setattr`-copied onto the row; absent ones leave the row alone. -/
def apply_present_fields (r : UserRecord) (user_update : UserUpdate) : UserRecord :=
  let r1 := match user_update.email with
    | some v => { r with email := v }
    | none => r
  match user_update.is_active with
  | some v => { r1 with is_active := v }
  | none => r1

/-- Outcome of crud.py `update_user`: `none` return for an unknown id, the
propagated `TypeError` when a present-null password reaches the hasher, or
the refreshed row with the committed store. -/
inductive UpdateOutcome where
  | notFound
  | typeError
  | updated (r : UserRecord) (db : DB)
deriving Repr, DecidableEq

/-- crud.py `update_user`: resolve the row (absent: return `None`); take the
explicitly-set payload fields; if `password` is set, hash its value (an
explicit null raises from the hasher before any mutation) and assign the
digest to `hashed_password`, deleting the raw key; copy every remaining set
field onto the row; commit and return the refreshed row. -/
def update_user (hashFn : String → String) (db : DB) (user_id : Nat)
    (user_update : UserUpdate) : UpdateOutcome :=
  match get_user db user_id with
  | none => .notFound
  | some db_user =>
    match user_update.password with
    | some pw =>
      match get_password_hash hashFn pw with
      | .error _ => .typeError
      | .ok hashed_password =>
        let db_user := { db_user with hashed_password := hashed_password }
        let db_user := apply_present_fields db_user user_update
        .updated db_user (set_user db db_user)
    | none =>
      let db_user := apply_present_fields db_user user_update
      .updated db_user (set_user db db_user)

/-- crud.py `delete_user`: resolve the row (absent: `None`); otherwise remove
it, commit, and return the row as it was before removal. -/
def delete_user (db : DB) (user_id : Nat) : Option (UserRecord × DB) :=
  match get_user db user_id with
  | none => none
  | some db_user =>
    some (db_user, ⟨db.users.filter (fun u => u.id != user_id), db.nextId⟩)

/-- HTTP-level result of an endpoint: a response body, or an error status
with a detail string (FastAPI `HTTPException`; 500 for an uncaught
exception or a response-validation failure). -/
inductive ApiResult (α : Type) where
  | ok (body : α)
  | httpError (status : Nat) (detail : String)
deriving Repr, DecidableEq

/-- Serialising a row through `response_model=schemas.User`: project, or
answer 500 when the stored row does not validate against the response
schema. -/
def respond (r : UserRecord) : ApiResult ApiUser :=
  match toApiUser r with
  | some u => .ok u
  | none => .httpError 500 "Internal Server Error"

/-- main.py `create_user` (POST /users/): pre-check the email; 400 when a
row with that email exists, otherwise insert and return the projected row. -/
def create_user_endpoint (hashFn : String → String) (db : DB)
    (user : UserCreate) : ApiResult ApiUser × DB :=
  match get_user_by_email db user.email with
  | some _ => (.httpError 400 "Email already registered", db)
  | none =>
    let rdb := create_user hashFn db user
    (respond rdb.1, rdb.2)

/-- main.py `read_users` (GET /users/): bounded listing, each row projected
through the response schema; the store is not modified. -/
def read_users_endpoint (db : DB) (skip : Nat) (limit : Nat) :
    ApiResult (List ApiUser) × DB :=
  match (get_users db skip limit).mapM toApiUser with
  | some l => (.ok l, db)
  | none => (.httpError 500 "Internal Server Error", db)

/-- main.py `read_user` (GET /users/id): 404 when the id does not resolve;
the store is not modified. -/
def read_user_endpoint (db : DB) (user_id : Nat) : ApiResult ApiUser × DB :=
  match get_user db user_id with
  | none => (.httpError 404 "User not found", db)
  | some r => (respond r, db)

/-- main.py `update_user_endpoint` (PATCH /users/id): 404 when crud returns
`None`; a propagated hasher `TypeError` surfaces as 500 with no commit. -/
def update_user_endpoint (hashFn : String → String) (db : DB) (user_id : Nat)
    (user : UserUpdate) : ApiResult ApiUser × DB :=
  match update_user hashFn db user_id user with
  | .notFound => (.httpError 404 "User not found", db)
  | .typeError => (.httpError 500 "Internal Server Error", db)
  | .updated r db' => (respond r, db')

/-- main.py `delete_user_endpoint` (DELETE /users/id): 404 when the id does
not resolve; otherwise the snapshot of the removed row. -/
def delete_user_endpoint (db : DB) (user_id : Nat) : ApiResult ApiUser × DB :=
  match delete_user db user_id with
  | none => (.httpError 404 "User not found", db)
  | some rdb => (respond rdb.1, rdb.2)

/-- One client-visible mutating operation against the API. -/
inductive Op where
  | create (user : UserCreate)
  | update (user_id : Nat) (user_update : UserUpdate)
  | delete (user_id : Nat)
deriving Repr, DecidableEq

/-- Whether an operation is a PATCH. -/
def Op.isUpdate : Op → Bool
  | .update _ _ => true
  | _ => false

/-- The store after one endpoint call. -/
def apply_op (hashFn : String → String) (db : DB) : Op → DB
  | .create u => (create_user_endpoint hashFn db u).2
  | .update uid uu => (update_user_endpoint hashFn db uid uu).2
  | .delete uid => (delete_user_endpoint db uid).2

/-- The store after a sequence of endpoint calls. -/
def run_ops (hashFn : String → String) (db : DB) : List Op → DB
  | [] => db
  | op :: ops => run_ops hashFn (apply_op hashFn db op) ops

/-- Email uniqueness across the whole table (the invariant of section 3). -/
def emailsDistinct (db : DB) : Prop :=
  (db.users.map (fun u => u.email)).Nodup

instance (db : DB) : Decidable (emailsDistinct db) := by
  unfold emailsDistinct; infer_instance

/-- crud.py `create_user` iterated over a list of inputs (the "after
creating N users" scenarios of section 8). -/
def create_many (hashFn : String → String) (db : DB) : List UserCreate → DB
  | [] => db
  | u :: us => create_many hashFn (create_user hashFn db u).2 us

/-- A concrete stand-in digest function for evaluating the model on
concrete inputs; it satisfies the spec-modelled hasher properties (digest
differs from the plaintext and is non-empty) by a length argument. -/
def demoHash (p : String) : String := "$2b$12$" ++ p

/-- The all-unset patch payload: what `UserUpdate` validation produces from
a request body none of whose keys name a schema field, e.g. a body holding
only `name`. -/
def emptyUpdate : UserUpdate := ⟨none, none, none⟩

/-- A concrete one-user store: the result of creating the user
(name "a", email "a@x.com", password "p") in the empty store. -/
def db1 : DB := (create_user demoHash emptyDB ⟨"a@x.com", "a", "p"⟩).2

/-- A patch payload whose `password` key is explicitly present with value
null: `UserUpdate` validates the body with just `password: null` to exactly
this value. -/
def pwNullUpdate : UserUpdate := ⟨none, some none, none⟩

/-- Absence of an id from the store, stably: no stored row carries it and
the store will never assign it again (the next id is already larger). -/
def idAbsent (user_id : Nat) (db : DB) : Prop :=
  (∀ u ∈ db.users, u.id ≠ user_id) ∧ user_id < db.nextId

/-- The operation sequence that breaks email uniqueness: create two users
with distinct emails, then PATCH the email of the second to the email of the first.
The PATCH path performs no uniqueness check. -/
def dupEmailOps : List Op :=
  [ .create ⟨"a@x.com", "a", "p"⟩,
    .create ⟨"b@x.com", "b", "q"⟩,
    .update 2 ⟨some (some "a@x.com"), none, none⟩ ]

/-! ### Helper lemmas -/

/-- The stand-in digest differs from its input (its length is larger). -/
theorem demoHash_ne (p : String) : demoHash p ≠ p := by
  intro h
  have hl := congrArg String.length h
  rw [demoHash, String.length_append,
    show ("$2b$12$").length = 7 from rfl] at hl
  omega

/-- The stand-in digest is non-empty. -/
theorem demoHash_ne_empty (p : String) : demoHash p ≠ "" := by
  intro h
  have hl := congrArg String.length h
  rw [demoHash, String.length_append, show ("$2b$12$").length = 7 from rfl,
    show ("" : String).length = 0 from rfl] at hl
  omega

/-- Hashing a genuine string never errs. -/
theorem get_password_hash_some (hashFn : String → String) (p : String) :
    get_password_hash hashFn (some p) = .ok (hashFn p) := rfl

theorem apply_present_fields_id (r : UserRecord) (uu : UserUpdate) :
    (apply_present_fields r uu).id = r.id := by
  unfold apply_present_fields
  cases uu.email <;> cases uu.is_active <;> rfl

theorem apply_present_fields_name (r : UserRecord) (uu : UserUpdate) :
    (apply_present_fields r uu).name = r.name := by
  unfold apply_present_fields
  cases uu.email <;> cases uu.is_active <;> rfl

theorem apply_present_fields_hashed (r : UserRecord) (uu : UserUpdate) :
    (apply_present_fields r uu).hashed_password = r.hashed_password := by
  unfold apply_present_fields
  cases uu.email <;> cases uu.is_active <;> rfl

theorem apply_present_fields_email (r : UserRecord) (uu : UserUpdate) :
    (apply_present_fields r uu).email =
      (match uu.email with | some v => v | none => r.email) := by
  unfold apply_present_fields
  cases uu.email <;> cases uu.is_active <;> rfl

theorem apply_present_fields_is_active (r : UserRecord) (uu : UserUpdate) :
    (apply_present_fields r uu).is_active =
      (match uu.is_active with | some v => v | none => r.is_active) := by
  unfold apply_present_fields
  cases uu.email <;> cases uu.is_active <;> rfl

/-- A successful point lookup returns a stored row with the looked-up id. -/
theorem get_user_mem (db : DB) (user_id : Nat) (r : UserRecord)
    (h : get_user db user_id = some r) : r ∈ db.users ∧ r.id = user_id := by
  refine ⟨List.mem_of_find?_eq_some h, ?_⟩
  have := List.find?_some h
  simpa using this

/-! ### C10, C2, C1, C7 -/

/-- C10: the update schema admits an explicitly-present null password
(`pwNullUpdate`), and on such a schema-valid payload `update_user` invokes
the hasher on the null, whose error branch fires; so `update_user` is not
total over schema-valid payloads (the endpoint surfaces the propagated
exception as a 500). -/
theorem update_user_null_password_raises :
    get_password_hash demoHash none = .error .typeError ∧
    update_user demoHash db1 1 pwNullUpdate = .typeError ∧
    update_user_endpoint demoHash db1 1 pwNullUpdate =
      (.httpError 500 "Internal Server Error", db1) :=
  ⟨rfl, rfl, rfl⟩

/-- C2 (counterexample to the spec, recorded as a code bug): the update
schema has no `name` field, so the body holding only `name` validates to
the all-unset payload; PATCH then answers 200 with the old name of the record
"a" — the tests of the repository itself assert the name becomes the new value. -/
theorem patch_name_only_is_no_op :
    update_user_endpoint demoHash db1 1 emptyUpdate =
      (.ok ⟨1, "a@x.com", "a", true⟩, db1) ∧
    (⟨1, "a@x.com", "a", true⟩ : ApiUser).name ≠ "b" :=
  ⟨rfl, by decide⟩

/-- C1 counterexample: on the schema-valid payload whose password is an
explicit null, `update_user` does not update the present fields at all —
the hasher raises before any mutation — so the claim quantified over every
payload fails at this one. -/
theorem update_user_null_password_no_update :
    update_user demoHash db1 1 pwNullUpdate = .typeError ∧
    ∀ r' db', update_user demoHash db1 1 pwNullUpdate ≠ .updated r' db' := by
  refine ⟨rfl, ?_⟩
  intro r' db' h
  rw [show update_user demoHash db1 1 pwNullUpdate = .typeError from rfl] at h
  exact UpdateOutcome.noConfusion h

/-- C1 (amended): for an existing record and a payload whose `password`,
when present, holds a non-null string, `update_user` changes exactly the
explicitly-present fields: a present password is passed through the hasher
and the digest assigned to `hashed_password` (the raw value is never
written verbatim), each other present field — null or not — is copied onto
the record, and absent fields keep their previous values. -/
theorem update_user_frame (hashFn : String → String)
    (hsafe : ∀ s, hashFn s ≠ s) (db : DB) (user_id : Nat) (uu : UserUpdate)
    (r : UserRecord) (hget : get_user db user_id = some r)
    (hpw : uu.password ≠ some none) :
    ∃ r' db', update_user hashFn db user_id uu = .updated r' db' ∧
      r'.id = r.id ∧
      r'.name = r.name ∧
      r'.email = (match uu.email with | some v => v | none => r.email) ∧
      r'.is_active =
        (match uu.is_active with | some v => v | none => r.is_active) ∧
      r'.hashed_password =
        (match uu.password with
         | some (some p) => hashFn p
         | _ => r.hashed_password) ∧
      (∀ p, uu.password = some (some p) → r'.hashed_password ≠ p) ∧
      db' = set_user db r' := by
  obtain ⟨e, pw, a⟩ := uu
  match pw with
  | some none => exact absurd rfl hpw
  | some (some p) =>
    refine ⟨apply_present_fields { r with hashed_password := hashFn p }
        ⟨e, some (some p), a⟩, _, ?_, ?_, ?_, ?_, ?_, ?_, ?_, rfl⟩
    · simp [update_user, hget, get_password_hash]
    · exact apply_present_fields_id _ _
    · exact apply_present_fields_name _ _
    · exact apply_present_fields_email _ _
    · exact apply_present_fields_is_active _ _
    · simpa using apply_present_fields_hashed
        { r with hashed_password := hashFn p } ⟨e, some (some p), a⟩
    · intro q hq
      have hpq : p = q := by
        have h1 : (some (some p) : Option (Option String)) = some (some q) := hq
        injection h1 with h2
        injection h2
      rw [apply_present_fields_hashed, ← hpq]
      exact hsafe p
  | none =>
    refine ⟨apply_present_fields r ⟨e, none, a⟩, _, ?_, ?_, ?_, ?_, ?_, ?_, ?_, rfl⟩
    · simp [update_user, hget]
    · exact apply_present_fields_id _ _
    · exact apply_present_fields_name _ _
    · exact apply_present_fields_email _ _
    · exact apply_present_fields_is_active _ _
    · simpa using apply_present_fields_hashed r ⟨e, none, a⟩
    · intro q hq
      exact Option.noConfusion hq

/-- C1 witness: the frame theorem applied to the one-user store with a
concrete payload updating email and password. -/
theorem update_user_frame_holds :
    ∃ r' db',
      update_user demoHash db1 1 ⟨some (some "c@x.com"), some (some "q"), none⟩ =
        .updated r' db' ∧
      r'.id = 1 ∧
      r'.name = "a" ∧
      r'.email = some "c@x.com" ∧
      r'.is_active = some true ∧
      r'.hashed_password = demoHash "q" ∧
      (∀ p, (⟨some (some "c@x.com"), some (some "q"), none⟩ : UserUpdate).password =
        some (some p) → r'.hashed_password ≠ p) ∧
      db' = set_user db1 r' := by
  have h := update_user_frame demoHash demoHash_ne db1 1
    ⟨some (some "c@x.com"), some (some "q"), none⟩
    ⟨1, "a", some "a@x.com", demoHash "p", some true⟩ (by rfl) (by decide)
  simpa using h

/-- C7: for an id that does not resolve, GET, PATCH and DELETE each answer
404 and leave the store unchanged, and the crud operations report absence
and do nothing further. -/
theorem unknown_id_answers_404 (hashFn : String → String) (db : DB)
    (user_id : Nat) (uu : UserUpdate) (habsent : get_user db user_id = none) :
    read_user_endpoint db user_id = (.httpError 404 "User not found", db) ∧
    update_user_endpoint hashFn db user_id uu =
      (.httpError 404 "User not found", db) ∧
    delete_user_endpoint db user_id = (.httpError 404 "User not found", db) ∧
    update_user hashFn db user_id uu = .notFound ∧
    delete_user db user_id = none := by
  refine ⟨?_, ?_, ?_, ?_, ?_⟩ <;>
    simp [read_user_endpoint, update_user_endpoint, delete_user_endpoint,
      update_user, delete_user, habsent]

/-- C7 witness: the 404 theorem at the one-user store and the unknown id 2. -/
theorem unknown_id_answers_404_holds :
    read_user_endpoint db1 2 = (.httpError 404 "User not found", db1) ∧
    update_user_endpoint demoHash db1 2 emptyUpdate =
      (.httpError 404 "User not found", db1) ∧
    delete_user_endpoint db1 2 = (.httpError 404 "User not found", db1) ∧
    update_user demoHash db1 2 emptyUpdate = .notFound ∧
    delete_user db1 2 = none :=
  unknown_id_answers_404 demoHash db1 2 emptyUpdate (by rfl)

/-! ### Lookup characterisations and the stable-absence invariant -/

/-- Absent point lookup characterised by the stored ids. -/
theorem get_user_eq_none (db : DB) (user_id : Nat) :
    get_user db user_id = none ↔ ∀ u ∈ db.users, u.id ≠ user_id := by
  unfold get_user
  rw [List.find?_eq_none]
  constructor
  · intro h u hu
    simpa using h u hu
  · intro h u hu
    simpa using h u hu

/-- A stably absent id does not resolve. -/
theorem get_user_of_idAbsent (db : DB) (user_id : Nat)
    (h : idAbsent user_id db) : get_user db user_id = none :=
  (get_user_eq_none db user_id).mpr h.1

/-- A successful update comes from a resolved row; the refreshed row keeps
the primary key of that row and the committed store is the in-place
replacement. -/
theorem update_user_updated_inv (hashFn : String → String) (db : DB)
    (user_id : Nat) (uu : UserUpdate) (r' : UserRecord) (db' : DB)
    (h : update_user hashFn db user_id uu = .updated r' db') :
    ∃ r0, get_user db user_id = some r0 ∧ r'.id = r0.id ∧
      db' = set_user db r' := by
  unfold update_user at h
  cases hget : get_user db user_id with
  | none =>
    simp only [hget] at h
    exact UpdateOutcome.noConfusion h
  | some r0 =>
    simp only [hget] at h
    refine ⟨r0, rfl, ?_⟩
    cases hpw : uu.password with
    | none =>
      simp only [hpw, UpdateOutcome.updated.injEq] at h
      obtain ⟨h1, h2⟩ := h
      subst h1
      exact ⟨apply_present_fields_id _ _, h2.symm⟩
    | some pw =>
      cases pw with
      | none =>
        simp only [hpw, get_password_hash] at h
        exact UpdateOutcome.noConfusion h
      | some p =>
        simp only [hpw, get_password_hash, UpdateOutcome.updated.injEq] at h
        obtain ⟨h1, h2⟩ := h
        subst h1
        exact ⟨apply_present_fields_id _ _, h2.symm⟩

/-- POST keeps a stably absent id stably absent: an inserted row gets the
strictly larger next id. -/
theorem create_endpoint_idAbsent (hashFn : String → String) (db : DB)
    (u : UserCreate) (user_id : Nat) (h : idAbsent user_id db) :
    idAbsent user_id (create_user_endpoint hashFn db u).2 := by
  obtain ⟨hids, hlt⟩ := h
  unfold create_user_endpoint
  cases hfind : get_user_by_email db u.email with
  | some r => exact ⟨hids, hlt⟩
  | none =>
    refine ⟨?_, by simp [create_user]; omega⟩
    intro x hx
    simp only [create_user, List.mem_append, List.mem_singleton] at hx
    rcases hx with hx | hx
    · exact hids x hx
    · subst hx
      simp
      omega

/-- PATCH keeps a stably absent id stably absent: the in-place replacement
touches no primary key. -/
theorem update_endpoint_idAbsent (hashFn : String → String) (db : DB)
    (uid : Nat) (uu : UserUpdate) (user_id : Nat) (h : idAbsent user_id db) :
    idAbsent user_id (update_user_endpoint hashFn db uid uu).2 := by
  obtain ⟨hids, hlt⟩ := h
  unfold update_user_endpoint
  cases hup : update_user hashFn db uid uu with
  | notFound => exact ⟨hids, hlt⟩
  | typeError => exact ⟨hids, hlt⟩
  | updated r' db' =>
    obtain ⟨r0, hget, hid, hdb'⟩ :=
      update_user_updated_inv hashFn db uid uu r' db' hup
    subst hdb'
    refine ⟨?_, hlt⟩
    intro x hx
    simp only [set_user, List.mem_map] at hx
    obtain ⟨y, hy, hxy⟩ := hx
    by_cases hc : (y.id == r'.id) = true
    · rw [← hxy, if_pos hc, hid]
      exact hids r0 (get_user_mem db uid r0 hget).1
    · rw [← hxy, if_neg hc]
      exact hids y hy

/-- DELETE keeps a stably absent id stably absent: removal only shrinks the
table. -/
theorem delete_endpoint_idAbsent (db : DB) (uid : Nat) (user_id : Nat)
    (h : idAbsent user_id db) :
    idAbsent user_id (delete_user_endpoint db uid).2 := by
  obtain ⟨hids, hlt⟩ := h
  unfold delete_user_endpoint delete_user
  cases hget : get_user db uid with
  | none => exact ⟨hids, hlt⟩
  | some r =>
    refine ⟨?_, hlt⟩
    intro x hx
    have hx' : x ∈ db.users.filter (fun u => u.id != uid) := hx
    exact hids x (List.mem_of_mem_filter hx')

/-- Every endpoint operation keeps a stably absent id stably absent. -/
theorem apply_op_idAbsent (hashFn : String → String) (db : DB) (op : Op)
    (user_id : Nat) (h : idAbsent user_id db) :
    idAbsent user_id (apply_op hashFn db op) := by
  cases op with
  | create u =>
    simp only [apply_op]
    exact create_endpoint_idAbsent hashFn db u user_id h
  | update uid uu =>
    simp only [apply_op]
    exact update_endpoint_idAbsent hashFn db uid uu user_id h
  | delete uid =>
    simp only [apply_op]
    exact delete_endpoint_idAbsent db uid user_id h

/-- A stably absent id stays stably absent along any operation sequence. -/
theorem run_ops_idAbsent (hashFn : String → String) (ops : List Op)
    (user_id : Nat) :
    ∀ db, idAbsent user_id db → idAbsent user_id (run_ops hashFn db ops) := by
  induction ops with
  | nil => intro db h; exact h
  | cons op ops ih =>
    intro db h
    exact ih _ (apply_op_idAbsent hashFn db op user_id h)

/-! ### C8, C5, C6 -/

/-- C8: deleting a resolvable id returns the row exactly as stored together
with the snapshot response, and the id no longer resolves — in the
resulting store and after any further sequence of API operations. -/
theorem delete_then_get (hashFn : String → String) (db : DB) (hwf : dbWF db)
    (user_id : Nat) (r : UserRecord) (hget : get_user db user_id = some r) :
    ∃ db', delete_user db user_id = some (r, db') ∧
      delete_user_endpoint db user_id = (respond r, db') ∧
      get_user db' user_id = none ∧
      ∀ ops : List Op, get_user (run_ops hashFn db' ops) user_id = none := by
  have hmem := get_user_mem db user_id r hget
  have habs : idAbsent user_id
      ⟨db.users.filter (fun u => u.id != user_id), db.nextId⟩ := by
    constructor
    · intro x hx
      have hx' : x ∈ db.users.filter (fun u => u.id != user_id) := hx
      simpa using List.of_mem_filter hx'
    · show user_id < db.nextId
      have h1 := hwf r hmem.1
      have h2 := hmem.2
      omega
  refine ⟨⟨db.users.filter (fun u => u.id != user_id), db.nextId⟩, ?_, ?_, ?_, ?_⟩
  · unfold delete_user
    rw [hget]
  · unfold delete_user_endpoint delete_user
    rw [hget]
  · exact get_user_of_idAbsent _ _ habs
  · intro ops
    exact get_user_of_idAbsent _ _ (run_ops_idAbsent hashFn ops user_id _ habs)

/-- C8 witness: deleting the only user of the one-user store. -/
theorem delete_then_get_holds :
    ∃ db', delete_user db1 1 =
        some (⟨1, "a", some "a@x.com", demoHash "p", some true⟩, db') ∧
      delete_user_endpoint db1 1 =
        (respond ⟨1, "a", some "a@x.com", demoHash "p", some true⟩, db') ∧
      get_user db' 1 = none ∧
      ∀ ops : List Op, get_user (run_ops demoHash db' ops) 1 = none :=
  delete_then_get demoHash db1 (by decide) 1
    ⟨1, "a", some "a@x.com", demoHash "p", some true⟩ rfl

/-- C5: lookup by the new id immediately after create returns a record
whose name and email equal the input, with a hashed password that is
non-empty and differs from the plaintext. -/
theorem create_then_get (hashFn : String → String)
    (hne : ∀ p, hashFn p ≠ p) (hnonempty : ∀ p, hashFn p ≠ "")
    (db : DB) (hwf : dbWF db) (user : UserCreate) :
    ∃ r db', create_user hashFn db user = (r, db') ∧
      get_user db' r.id = some r ∧
      r.name = user.name ∧ r.email = some user.email ∧
      r.hashed_password ≠ "" ∧ r.hashed_password ≠ user.password := by
  refine ⟨(create_user hashFn db user).1, (create_user hashFn db user).2,
    rfl, ?_, rfl, rfl, hnonempty _, hne _⟩
  have h1 : db.users.find? (fun u => u.id == db.nextId) = none := by
    rw [List.find?_eq_none]
    intro x hx
    have hlt := hwf x hx
    simp only [beq_iff_eq]
    omega
  show List.find? (fun u => u.id == db.nextId)
      (db.users ++ [(create_user hashFn db user).1]) =
    some (create_user hashFn db user).1
  rw [List.find?_append, h1]
  simp [create_user]

/-- C5 witness: the create/get round trip in the empty store. -/
theorem create_then_get_holds :
    ∃ r db', create_user demoHash emptyDB ⟨"a@x.com", "a", "p"⟩ = (r, db') ∧
      get_user db' r.id = some r ∧
      r.name = "a" ∧ r.email = some "a@x.com" ∧
      r.hashed_password ≠ "" ∧ r.hashed_password ≠ "p" :=
  create_then_get demoHash demoHash_ne demoHash_ne_empty emptyDB (by decide)
    ⟨"a@x.com", "a", "p"⟩

/-- C6: a POST with a fresh email inserts a row carrying the next id and
answers with its projection; a POST whose email is already stored — right
after that insert, or in any store holding the email — answers 400 "Email
already registered" and leaves the store unchanged. -/
theorem post_users_email_conflict (hashFn : String → String) (db : DB)
    (u u2 : UserCreate) (hfresh : get_user_by_email db u.email = none)
    (hsame : u2.email = u.email) :
    ∃ r db',
      create_user_endpoint hashFn db u =
        (.ok ⟨db.nextId, u.email, u.name, IS_ACTIVE_DEFAULT⟩, db') ∧
      create_user hashFn db u = (r, db') ∧
      r.id = db.nextId ∧ db'.users = db.users ++ [r] ∧
      create_user_endpoint hashFn db' u2 =
        (.httpError 400 "Email already registered", db') ∧
      (∀ db2 : DB, get_user_by_email db2 u.email ≠ none →
        create_user_endpoint hashFn db2 u2 =
          (.httpError 400 "Email already registered", db2)) := by
  have hgen : ∀ db2 : DB, get_user_by_email db2 u.email ≠ none →
      create_user_endpoint hashFn db2 u2 =
        (.httpError 400 "Email already registered", db2) := by
    intro db2 h2
    unfold create_user_endpoint
    rw [hsame]
    cases hfind : get_user_by_email db2 u.email with
    | none => exact absurd hfind h2
    | some r => rfl
  refine ⟨(create_user hashFn db u).1, (create_user hashFn db u).2,
    ?_, rfl, rfl, rfl, ?_, hgen⟩
  · unfold create_user_endpoint
    rw [hfresh]
    rfl
  · apply hgen
    have hv : get_user_by_email (create_user hashFn db u).2 u.email =
        some (create_user hashFn db u).1 := by
      show List.find? (fun x => x.email == some u.email)
          (db.users ++ [(create_user hashFn db u).1]) = _
      rw [List.find?_append]
      unfold get_user_by_email at hfresh
      rw [hfresh]
      simp [create_user]
    rw [hv]
    simp

/-- C6 witness: create in the empty store, then a second create with the
same email. -/
theorem post_users_email_conflict_holds :
    ∃ r db',
      create_user_endpoint demoHash emptyDB ⟨"a@x.com", "a", "p"⟩ =
        (.ok ⟨emptyDB.nextId, "a@x.com", "a", IS_ACTIVE_DEFAULT⟩, db') ∧
      create_user demoHash emptyDB ⟨"a@x.com", "a", "p"⟩ = (r, db') ∧
      r.id = emptyDB.nextId ∧ db'.users = emptyDB.users ++ [r] ∧
      create_user_endpoint demoHash db' ⟨"a@x.com", "c", "q"⟩ =
        (.httpError 400 "Email already registered", db') ∧
      (∀ db2 : DB, get_user_by_email db2 "a@x.com" ≠ none →
        create_user_endpoint demoHash db2 ⟨"a@x.com", "c", "q"⟩ =
          (.httpError 400 "Email already registered", db2)) :=
  post_users_email_conflict demoHash emptyDB ⟨"a@x.com", "a", "p"⟩
    ⟨"a@x.com", "c", "q"⟩ rfl rfl

/-! ### C3: email uniqueness -/

/-- POST preserves table-wide email uniqueness: the pre-check refuses a
duplicate, and an inserted email was just checked absent. -/
theorem create_endpoint_emailsDistinct (hashFn : String → String) (db : DB)
    (u : UserCreate) (hd : emailsDistinct db) :
    emailsDistinct (create_user_endpoint hashFn db u).2 := by
  unfold create_user_endpoint
  cases hfind : get_user_by_email db u.email with
  | some r => exact hd
  | none =>
    show ((db.users ++ [(⟨db.nextId, u.name, some u.email, hashFn u.password,
      some IS_ACTIVE_DEFAULT⟩ : UserRecord)]).map
        (fun x : UserRecord => x.email)).Nodup
    rw [List.map_append, List.nodup_append]
    refine ⟨hd, List.nodup_singleton _, ?_⟩
    intro a ha hb
    simp only [List.map_cons, List.map_nil, List.mem_singleton] at hb
    subst hb
    unfold get_user_by_email at hfind
    rw [List.find?_eq_none] at hfind
    rw [List.mem_map] at ha
    obtain ⟨x, hx, hxe⟩ := ha
    have hne := hfind x hx
    rw [hxe] at hne
    simp at hne

/-- DELETE preserves table-wide email uniqueness: removal only shrinks the
table. -/
theorem delete_endpoint_emailsDistinct (db : DB) (user_id : Nat)
    (hd : emailsDistinct db) :
    emailsDistinct (delete_user_endpoint db user_id).2 := by
  unfold delete_user_endpoint delete_user
  cases hget : get_user db user_id with
  | none => exact hd
  | some r =>
    show ((db.users.filter (fun x : UserRecord => x.id != user_id)).map
      (fun x : UserRecord => x.email)).Nodup
    exact List.Nodup.sublist
      (List.Sublist.map _ (List.filter_sublist db.users)) hd

/-- Along a sequence free of PATCH operations, email uniqueness is
preserved. -/
theorem run_ops_emailsDistinct (hashFn : String → String) (ops : List Op)
    (h : ∀ op ∈ ops, op.isUpdate = false) :
    ∀ db, emailsDistinct db → emailsDistinct (run_ops hashFn db ops) := by
  induction ops with
  | nil => intro db hd; exact hd
  | cons op ops ih =>
    intro db hd
    have hop := h op (List.mem_cons_self op ops)
    have hrest : ∀ o ∈ ops, o.isUpdate = false :=
      fun o ho => h o (List.mem_cons_of_mem _ ho)
    unfold run_ops
    apply ih hrest
    cases op with
    | create u =>
      simp only [apply_op]
      exact create_endpoint_emailsDistinct hashFn db u hd
    | update uid uu => simp [Op.isUpdate] at hop
    | delete uid =>
      simp only [apply_op]
      exact delete_endpoint_emailsDistinct db uid hd

/-- C3 counterexample: creating two users with distinct emails and then
patching the email of the second to the email of the first yields a reachable
store with two records sharing an email — PATCH performs no uniqueness
check. -/
theorem update_breaks_email_uniqueness :
    ¬ emailsDistinct (run_ops demoHash emptyDB dupEmailOps) := by decide

/-- C3 (amended): in every state reachable from the empty store by create
and delete operations alone, every two distinct records have distinct
emails; an update operation can break the invariant, so it is excluded. -/
theorem create_delete_email_uniqueness (hashFn : String → String)
    (ops : List Op) (h : ∀ op ∈ ops, op.isUpdate = false) :
    emailsDistinct (run_ops hashFn emptyDB ops) :=
  run_ops_emailsDistinct hashFn ops h emptyDB (by simp [emailsDistinct, emptyDB])

/-- C3 witness: two creations and a deletion keep emails distinct. -/
theorem create_delete_email_uniqueness_holds :
    emailsDistinct (run_ops demoHash emptyDB
      [.create ⟨"a@x.com", "a", "p"⟩, .create ⟨"b@x.com", "b", "q"⟩,
        .delete 1]) :=
  create_delete_email_uniqueness demoHash _ (by decide)

/-! ### C9: listing -/

/-- Rows after iterated creation: the existing rows followed by one row per
input, in input order, carrying the input names and emails. -/
theorem create_many_names_emails (hashFn : String → String)
    (us : List UserCreate) :
    ∀ db : DB, (create_many hashFn db us).users.map (fun u => (u.name, u.email)) =
      db.users.map (fun u => (u.name, u.email)) ++
        us.map (fun u => (u.name, some u.email)) := by
  induction us with
  | nil => intro db; simp [create_many]
  | cons u us ih =>
    intro db
    unfold create_many
    rw [ih]
    simp [create_user]

/-- Iterated creation grows the table by one row per input. -/
theorem create_many_length (hashFn : String → String) (us : List UserCreate) :
    ∀ db : DB, (create_many hashFn db us).users.length =
      db.users.length + us.length := by
  induction us with
  | nil => intro db; simp [create_many]
  | cons u us ih =>
    intro db
    unfold create_many
    rw [ih]
    simp [create_user]
    omega

/-- C9: listing keeps the stored (insertion/primary-key) order, skipping
the first `skip` rows and yielding at most `limit` rows; the defaults are
skip=0 and limit=100; with them the empty store lists as the empty
sequence, and a store of N ≤ 100 freshly created users lists as exactly
those N rows in creation order. -/
theorem get_users_pagination (db : DB) (skip limit : Nat)
    (hashFn : String → String) (us : List UserCreate)
    (hN : us.length ≤ 100) :
    (get_users db skip limit).length ≤ limit ∧
    (∀ i, i < limit → (get_users db skip limit)[i]? = db.users[skip + i]?) ∧
    DEFAULT_SKIP = 0 ∧ DEFAULT_LIMIT = 100 ∧
    get_users emptyDB DEFAULT_SKIP DEFAULT_LIMIT = [] ∧
    read_users_endpoint emptyDB DEFAULT_SKIP DEFAULT_LIMIT = (.ok [], emptyDB) ∧
    (create_many hashFn emptyDB us).users.length = us.length ∧
    get_users (create_many hashFn emptyDB us) DEFAULT_SKIP DEFAULT_LIMIT =
      (create_many hashFn emptyDB us).users ∧
    ((create_many hashFn emptyDB us).users.map fun u => (u.name, u.email)) =
      us.map (fun u => (u.name, some u.email)) := by
  have hlen : (create_many hashFn emptyDB us).users.length = us.length := by
    rw [create_many_length]
    simp [emptyDB]
  refine ⟨?_, ?_, rfl, rfl, rfl, rfl, hlen, ?_, ?_⟩
  · unfold get_users
    exact List.length_take_le _ _
  · intro i hi
    unfold get_users
    rw [List.getElem?_take, if_pos hi, List.getElem?_drop]
  · show ((create_many hashFn emptyDB us).users.drop 0).take 100 = _
    rw [List.drop_zero]
    apply List.take_of_length_le
    rw [hlen]
    exact hN
  · rw [create_many_names_emails]
    simp [emptyDB]

/-- C9 witness: pagination over the one-user store and the listing of two
freshly created users. -/
theorem get_users_pagination_holds :
    (get_users db1 1 2).length ≤ 2 ∧
    (∀ i, i < 2 → (get_users db1 1 2)[i]? = db1.users[1 + i]?) ∧
    DEFAULT_SKIP = 0 ∧ DEFAULT_LIMIT = 100 ∧
    get_users emptyDB DEFAULT_SKIP DEFAULT_LIMIT = [] ∧
    read_users_endpoint emptyDB DEFAULT_SKIP DEFAULT_LIMIT = (.ok [], emptyDB) ∧
    (create_many demoHash emptyDB
      [⟨"a@x.com", "a", "p"⟩, ⟨"b@x.com", "b", "q"⟩]).users.length = 2 ∧
    get_users (create_many demoHash emptyDB
        [⟨"a@x.com", "a", "p"⟩, ⟨"b@x.com", "b", "q"⟩])
      DEFAULT_SKIP DEFAULT_LIMIT =
      (create_many demoHash emptyDB
        [⟨"a@x.com", "a", "p"⟩, ⟨"b@x.com", "b", "q"⟩]).users ∧
    ((create_many demoHash emptyDB
        [⟨"a@x.com", "a", "p"⟩, ⟨"b@x.com", "b", "q"⟩]).users.map
      fun u => (u.name, u.email)) =
      [("a", some "a@x.com"), ("b", some "b@x.com")] :=
  get_users_pagination db1 1 2 demoHash
    [⟨"a@x.com", "a", "p"⟩, ⟨"b@x.com", "b", "q"⟩] (by decide)

/-! ### C4: the response projection -/

/-- C4: a response never carries `hashed_password`: serialisation is the
projection `toApiUser` onto id, email, name and is_active, so two stored
records that agree on those four fields — and may differ in
`hashed_password` — produce identical responses; and the read endpoints
return the store unchanged, with the single-record read answering exactly
the projection of the stored record. -/
theorem response_is_projection (db : DB) (user_id skip limit : Nat)
    (r1 r2 : UserRecord) (hid : r1.id = r2.id) (hemail : r1.email = r2.email)
    (hname : r1.name = r2.name) (hactive : r1.is_active = r2.is_active) :
    toApiUser r1 = toApiUser r2 ∧
    (read_user_endpoint db user_id).2 = db ∧
    (read_users_endpoint db skip limit).2 = db ∧
    (∀ r, get_user db user_id = some r →
      read_user_endpoint db user_id = (respond r, db)) := by
  refine ⟨?_, ?_, ?_, ?_⟩
  · unfold toApiUser
    rw [hid, hemail, hname, hactive]
  · unfold read_user_endpoint
    cases get_user db user_id <;> rfl
  · unfold read_users_endpoint
    cases (get_users db skip limit).mapM toApiUser <;> rfl
  · intro r hr
    unfold read_user_endpoint
    rw [hr]

/-- C4 witness: two stored records differing only in their password hash
produce the same response, at the one-user store. -/
theorem response_is_projection_holds :
    toApiUser ⟨1, "a", some "a@x.com", demoHash "p", some true⟩ =
      toApiUser ⟨1, "a", some "a@x.com", demoHash "other", some true⟩ ∧
    (read_user_endpoint db1 1).2 = db1 ∧
    (read_users_endpoint db1 0 100).2 = db1 ∧
    (∀ r, get_user db1 1 = some r →
      read_user_endpoint db1 1 = (respond r, db1)) :=
  response_is_projection db1 1 0 100
    ⟨1, "a", some "a@x.com", demoHash "p", some true⟩
    ⟨1, "a", some "a@x.com", demoHash "other", some true⟩ rfl rfl rfl rfl

end Backend
